import Mathlib

/-!
Shallow embedding of the dogbot web front-end sources:
`src/web/src/views/Guilds.js` (the `Guilds` view component) and
`src/web/src/components/Notice.js` (the `Notice` styled component).

The view's `render` method is embedded as a pure function from the stored
state to a virtual DOM tree; the asynchronous mount-and-fetch lifecycle is
embedded as a step function over explicit component states driven by an
event trace.
-/

namespace Dogbot

/-- Guild record fetched from the API. The `Guilds` view relies only on `id`;
`name` stands for the remaining display fields, which are opaque here. -/
structure Guild where
  id : String
  name : String
deriving Repr, DecidableEq

/-- Virtual DOM node produced by `render`. `elem` is an HTML element
(tag, attributes such as `id`, `className` or `key`, children), `link` is
the router `Link` component with its `to` target, and `guildComp` is the
external `Guild` sub-component applied to a guild record. -/
inductive Node where
  | text (s : String) : Node
  | elem (tag : String) (attrs : List (String × String)) (children : List Node) : Node
  | link (dest : String) (children : List Node) : Node
  | guildComp (g : Guild) : Node

/-- One `li` entry of the guild list: the body of the `guilds.map` call in
`Guilds.render` (lines 26-32 of `Guilds.js`). -/
def guildItem (guild : Guild) : Node :=
  Node.elem "li" [("key", guild.id)]
    [Node.link ("/guild/" ++ guild.id) [Node.guildComp guild]]

/-- The mapped list `guildNodes` of `Guilds.render`. -/
def guildNodes (guilds : List Guild) : List Node :=
  guilds.map guildItem

/-- The `content` branch of `Guilds.render`: loading placeholder when the
stored `guilds` is still null, the list fragment when `guilds.length !== 0`,
and the empty-state paragraph otherwise. Fragments are flattened to lists. -/
def guildsContent (guilds : Option (List Guild)) : List Node :=
  match guilds with
  | none => [Node.elem "p" [] [Node.text "Loading servers..."]]
  | some gs =>
      if gs.length ≠ 0 then
        [Node.elem "p" [] [Node.text "Click on a server below to edit its configuration:"],
         Node.elem "ul" [("className", "guild-list")] (guildNodes gs)]
      else
        [Node.elem "p" [] [Node.text "No servers."]]

/-- The full return value of `Guilds.render`: the outer `div#guilds` with the
`h2` heading followed by the varying content block. -/
def guildsRender (guilds : Option (List Guild)) : Node :=
  Node.elem "div" [("id", "guilds")]
    (Node.elem "h2" [] [Node.text "Servers"] :: guildsContent guilds)

/-- Tag of an element node, if any. -/
def nodeTag : Node → Option String
  | Node.elem t _ _ => some t
  | _ => none

/-- Attributes of an element node. -/
def nodeAttrs : Node → List (String × String)
  | Node.elem _ a _ => a
  | _ => []

/-- Children of an element or link node. -/
def nodeChildren : Node → List Node
  | Node.elem _ _ cs => cs
  | Node.link _ cs => cs
  | _ => []

/-- The stored component state of a `Guilds` instance: the `guilds` field of
`this.state` (null, i.e. `none`, initially) together with the list of HTTP
GET requests the instance has issued so far. -/
structure CompState where
  guilds : Option (List Guild)
  fetches : List String
deriving Repr, DecidableEq

/-- The initial state declared at lines 9-11 of `Guilds.js`: `guilds: null`
and no request issued yet. -/
def initState : CompState :=
  { guilds := none, fetches := [] }

/-- Lifecycle events of a `Guilds` instance on the single-threaded UI event
loop: React mounting the component (which runs `componentDidMount`), the
pending fetch resolving with a guild list (which runs the `setState` call),
the pending fetch rejecting (no handler exists), and a render pass. -/
inductive Event where
  | mount : Event
  | fetchResolve (gs : List Guild) : Event
  | fetchReject : Event
  | renderEv : Event
deriving Repr, DecidableEq

/-- Effect of one lifecycle event on the component state, read off
`componentDidMount` and `render`: mounting issues the single
`API.get('/api/guilds')` request; a resolved fetch stores the list via
`setState`; a rejected fetch has no handler and changes nothing; rendering
is pure and changes nothing. -/
def step (s : CompState) (e : Event) : CompState :=
  match e with
  | Event.mount => { s with fetches := s.fetches ++ ["/api/guilds"] }
  | Event.fetchResolve gs => { s with guilds := some gs }
  | Event.fetchReject => s
  | Event.renderEv => s

/-- Run a trace of lifecycle events from a state. -/
def run : CompState → List Event → CompState
  | s, [] => s
  | s, e :: tr => run (step s e) tr

/-- Recognizer for the mount event. -/
def isMount : Event → Bool
  | Event.mount => true
  | _ => false

/-- Recognizer for a successful fetch completion. -/
def isResolve : Event → Bool
  | Event.fetchResolve _ => true
  | _ => false

/-- Recognizer for any fetch completion, successful or rejected. -/
def isCompletion : Event → Bool
  | Event.fetchResolve _ => true
  | Event.fetchReject => true
  | _ => false

/-- Traces the React runtime can produce for one view instance: the
component is mounted exactly once, and the single request it issues
completes (resolves or rejects) at most once. -/
def ValidTrace (tr : List Event) : Prop :=
  tr.countP isMount = 1 ∧ tr.countP isCompletion ≤ 1

instance decidableValidTrace (tr : List Event) : Decidable (ValidTrace tr) :=
  inferInstanceAs (Decidable (tr.countP isMount = 1 ∧ tr.countP isCompletion ≤ 1))

/-- The view-state abstraction of the spec: `Loading` while the stored
`guilds` is still null, `Loaded` with the fetched list afterwards. -/
inductive ViewState where
  | Loading : ViewState
  | Loaded (gs : List Guild) : ViewState
deriving Repr, DecidableEq

/-- View state determined by a component state. -/
def viewStateOf (s : CompState) : ViewState :=
  match s.guilds with
  | none => ViewState.Loading
  | some gs => ViewState.Loaded gs

/-- Number of steps of a trace that move the view from `Loading` to
`Loaded`. -/
def countLoadedTransitions : CompState → List Event → Nat
  | _, [] => 0
  | s, e :: tr =>
      (if s.guilds.isNone && ((step s e).guilds).isSome then 1 else 0)
        + countLoadedTransitions (step s e) tr

/-- Number of steps of a trace that move the view from `Loaded` back to
`Loading`. -/
def countBackTransitions : CompState → List Event → Nat
  | _, [] => 0
  | s, e :: tr =>
      (if s.guilds.isSome && ((step s e).guilds).isNone then 1 else 0)
        + countBackTransitions (step s e) tr

/-- Number of steps of a trace that change the stored `guilds` value at
all. -/
def countGuildsChanges : CompState → List Event → Nat
  | _, [] => 0
  | s, e :: tr =>
      (if (step s e).guilds = s.guilds then 0 else 1)
        + countGuildsChanges (step s e) tr

/-- The static `MOODS` mapping of `Notice.js`: mood name to the pair of
border color (index 0) and background color (index 1). -/
def MOODS : List (String × String × String) :=
  [("default", "hsl(220, 100%, 85%)", "hsl(220, 100%, 95%)"),
   ("danger", "hsl(0, 100%, 85%)", "hsl(0, 100%, 95%)"),
   ("success", "hsl(120, 100%, 75%)", "hsl(120, 100%, 95%)")]

/-- Lookup performed by the `Notice` style interpolations: the `mood` prop
(absent props default to the string `default`) indexes `MOODS`; an unknown
key yields no entry, modelling the unguarded `MOODS[mood]` access. -/
def moodLookup (mood : Option String) : Option (String × String) :=
  MOODS.lookup (mood.getD "default")

/-- Border color of `Notice` (`MOODS[mood][0]`), when the lookup succeeds. -/
def noticeBorder (mood : Option String) : Option String :=
  (moodLookup mood).map (fun p => p.1)

/-- Background color of `Notice` (`MOODS[mood][1]`), when the lookup
succeeds. -/
def noticeBackground (mood : Option String) : Option String :=
  (moodLookup mood).map (fun p => p.2)

theorem step_guilds_of_not_resolve (s : CompState) (e : Event)
    (h : isResolve e = false) : (step s e).guilds = s.guilds := by
  cases e with
  | mount => rfl
  | fetchResolve gs => simp [isResolve] at h
  | fetchReject => rfl
  | renderEv => rfl

theorem step_guilds_isSome (s : CompState) (e : Event)
    (h : s.guilds.isSome = true) : ((step s e).guilds).isSome = true := by
  cases e with
  | mount => exact h
  | fetchResolve gs => rfl
  | fetchReject => exact h
  | renderEv => exact h

theorem run_guilds_none (tr : List Event) :
    ∀ s : CompState, tr.countP isResolve = 0 → s.guilds = none →
      (run s tr).guilds = none := by
  induction tr with
  | nil => intro s _ hs; exact hs
  | cons e tr ih =>
      intro s hcount hs
      rw [List.countP_cons] at hcount
      have he : isResolve e = false := by
        cases hre : isResolve e with
        | false => rfl
        | true => rw [hre] at hcount; simp at hcount
      have hstep : (step s e).guilds = none := by
        rw [step_guilds_of_not_resolve s e he]; exact hs
      have h0 : tr.countP isResolve = 0 := by
        rw [he] at hcount
        simpa using hcount
      exact ih (step s e) h0 hstep

theorem run_fetches (tr : List Event) :
    ∀ s : CompState,
      (run s tr).fetches = s.fetches ++ List.replicate (tr.countP isMount) "/api/guilds" := by
  induction tr with
  | nil => intro s; simp [run]
  | cons e tr ih =>
      intro s
      rw [List.countP_cons]
      cases e with
      | mount =>
          show (run (step s Event.mount) tr).fetches = _
          rw [ih (step s Event.mount)]
          simp [step, isMount, List.replicate_succ]
      | fetchResolve gs =>
          show (run (step s (Event.fetchResolve gs)) tr).fetches = _
          rw [ih (step s (Event.fetchResolve gs))]
          simp [step, isMount]
      | fetchReject =>
          show (run (step s Event.fetchReject) tr).fetches = _
          rw [ih (step s Event.fetchReject)]
          simp [step, isMount]
      | renderEv =>
          show (run (step s Event.renderEv) tr).fetches = _
          rw [ih (step s Event.renderEv)]
          simp [step, isMount]

theorem loaded_le_resolve (tr : List Event) :
    ∀ s : CompState, countLoadedTransitions s tr ≤ tr.countP isResolve := by
  induction tr with
  | nil => intro s; simp [countLoadedTransitions]
  | cons e tr ih =>
      intro s
      rw [List.countP_cons]
      cases e with
      | mount =>
          have h : (step s Event.mount).guilds = s.guilds := rfl
          simp only [countLoadedTransitions, h, isResolve]
          have : (s.guilds.isNone && s.guilds.isSome) = false := by
            cases s.guilds <;> rfl
          rw [this]
          simpa using ih (step s Event.mount)
      | fetchResolve gs =>
          simp only [countLoadedTransitions, isResolve, if_true]
          have hle := ih (step s (Event.fetchResolve gs))
          have hif : (if s.guilds.isNone && ((step s (Event.fetchResolve gs)).guilds).isSome
              then 1 else 0) ≤ 1 := by
            split <;> omega
          omega
      | fetchReject =>
          have h : (step s Event.fetchReject).guilds = s.guilds := rfl
          simp only [countLoadedTransitions, h, isResolve]
          have : (s.guilds.isNone && s.guilds.isSome) = false := by
            cases s.guilds <;> rfl
          rw [this]
          simpa using ih (step s Event.fetchReject)
      | renderEv =>
          have h : (step s Event.renderEv).guilds = s.guilds := rfl
          simp only [countLoadedTransitions, h, isResolve]
          have : (s.guilds.isNone && s.guilds.isSome) = false := by
            cases s.guilds <;> rfl
          rw [this]
          simpa using ih (step s Event.renderEv)

theorem changes_le_resolve (tr : List Event) :
    ∀ s : CompState, countGuildsChanges s tr ≤ tr.countP isResolve := by
  induction tr with
  | nil => intro s; simp [countGuildsChanges]
  | cons e tr ih =>
      intro s
      rw [List.countP_cons]
      cases e with
      | mount =>
          have h : (step s Event.mount).guilds = s.guilds := rfl
          simp only [countGuildsChanges, h, isResolve, if_pos rfl]
          simpa using ih (step s Event.mount)
      | fetchResolve gs =>
          simp only [countGuildsChanges, isResolve, if_true]
          have hle := ih (step s (Event.fetchResolve gs))
          have hif : (if (step s (Event.fetchResolve gs)).guilds = s.guilds
              then 0 else 1) ≤ 1 := by
            split <;> omega
          omega
      | fetchReject =>
          have h : (step s Event.fetchReject).guilds = s.guilds := rfl
          simp only [countGuildsChanges, h, isResolve, if_pos rfl]
          simpa using ih (step s Event.fetchReject)
      | renderEv =>
          have h : (step s Event.renderEv).guilds = s.guilds := rfl
          simp only [countGuildsChanges, h, isResolve, if_pos rfl]
          simpa using ih (step s Event.renderEv)

theorem countBack_zero (tr : List Event) :
    ∀ s : CompState, countBackTransitions s tr = 0 := by
  induction tr with
  | nil => intro s; rfl
  | cons e tr ih =>
      intro s
      have hif : (if s.guilds.isSome && ((step s e).guilds).isNone then 1 else 0) = 0 := by
        cases hs : s.guilds.isSome with
        | false => rfl
        | true =>
            have hsome := step_guilds_isSome s e hs
            have hnone : ((step s e).guilds).isNone = false := by
              cases h : (step s e).guilds with
              | none => rw [h] at hsome; simp at hsome
              | some gs => rfl
            rw [hnone]
            rfl
      simp only [countBackTransitions, hif]
      simpa using ih (step s e)

theorem resolve_le_completion (tr : List Event) :
    tr.countP isResolve ≤ tr.countP isCompletion := by
  induction tr with
  | nil => simp
  | cons e tr ih =>
      rw [List.countP_cons, List.countP_cons]
      cases e <;> simp [isResolve, isCompletion] <;> omega

theorem moodLookup_eq_none (m : String) (h1 : m ≠ "default") (h2 : m ≠ "danger")
    (h3 : m ≠ "success") : moodLookup (some m) = none := by
  have e1 : (m == "default") = false := beq_eq_false_iff_ne.mpr h1
  have e2 : (m == "danger") = false := beq_eq_false_iff_ne.mpr h2
  have e3 : (m == "success") = false := beq_eq_false_iff_ne.mpr h3
  simp [moodLookup, MOODS, List.lookup, e1, e2, e3]

/-- C1: for every non-empty fetched guild list, `Guilds.render` produces the
heading, the instruction paragraph, and a `ul` holding exactly one `li` per
guild, each `li` keyed by that guild's `id` and containing a link whose
target is `/guild/{id}`. -/
theorem guilds_render_nonempty (g : Guild) (gs : List Guild) :
    guildsRender (some (g :: gs)) =
      Node.elem "div" [("id", "guilds")]
        [Node.elem "h2" [] [Node.text "Servers"],
         Node.elem "p" [] [Node.text "Click on a server below to edit its configuration:"],
         Node.elem "ul" [("className", "guild-list")]
           ((g :: gs).map (fun gu =>
              Node.elem "li" [("key", gu.id)]
                [Node.link ("/guild/" ++ gu.id) [Node.guildComp gu]]))]
      ∧ (guildNodes (g :: gs)).length = (g :: gs).length := by
  constructor
  · simp [guildsRender, guildsContent, guildNodes, guildItem]
  · simp [guildNodes]

/-- C2: for the empty fetched guild list, `Guilds.render` produces the
heading followed by the literal text "No servers." as the content. -/
theorem guilds_render_empty :
    guildsRender (some ([] : List Guild)) =
      Node.elem "div" [("id", "guilds")]
        [Node.elem "h2" [] [Node.text "Servers"],
         Node.elem "p" [] [Node.text "No servers."]] := rfl

/-- C3: in every component state whose stored `guilds` is still the initial
null, whatever requests have been issued, `Guilds.render` produces the
heading followed by the literal text "Loading servers..." as the content. -/
theorem guilds_render_loading (fetches : List String) :
    guildsRender (CompState.mk none fetches).guilds =
      Node.elem "div" [("id", "guilds")]
        [Node.elem "h2" [] [Node.text "Servers"],
         Node.elem "p" [] [Node.text "Loading servers..."]] := rfl

/-- C4: over every trace the React runtime can produce, the view starts in
`Loading`, moves to `Loaded` at most once, never moves back to `Loading`,
and its stored guild list changes at most once (so no further transition of
any kind happens after it is `Loaded`). -/
theorem guilds_lifecycle (tr : List Event) (h : ValidTrace tr) :
    viewStateOf initState = ViewState.Loading
      ∧ countLoadedTransitions initState tr ≤ 1
      ∧ countBackTransitions initState tr = 0
      ∧ countGuildsChanges initState tr ≤ 1 := by
  refine ⟨rfl, ?_, countBack_zero tr initState, ?_⟩
  · exact le_trans (loaded_le_resolve tr initState)
      (le_trans (resolve_le_completion tr) h.2)
  · exact le_trans (changes_le_resolve tr initState)
      (le_trans (resolve_le_completion tr) h.2)

/-- Witness for C4 on the concrete trace mount-then-resolve. -/
theorem guilds_lifecycle_witness :
    ValidTrace [Event.mount, Event.fetchResolve [Guild.mk "1" "alpha"]]
      ∧ (viewStateOf initState = ViewState.Loading
          ∧ countLoadedTransitions initState
              [Event.mount, Event.fetchResolve [Guild.mk "1" "alpha"]] ≤ 1
          ∧ countBackTransitions initState
              [Event.mount, Event.fetchResolve [Guild.mk "1" "alpha"]] = 0
          ∧ countGuildsChanges initState
              [Event.mount, Event.fetchResolve [Guild.mk "1" "alpha"]] ≤ 1) :=
  ⟨by decide, guilds_lifecycle _ (by decide)⟩

/-- C5: a trace in which the fetch never resolves (it may reject) leaves the
stored `guilds` at null forever, so the view still renders the loading
placeholder and nothing else. -/
theorem guilds_fetch_failure_stays_loading (tr : List Event)
    (h : tr.countP isResolve = 0) :
    (run initState tr).guilds = none
      ∧ guildsRender (run initState tr).guilds =
          Node.elem "div" [("id", "guilds")]
            [Node.elem "h2" [] [Node.text "Servers"],
             Node.elem "p" [] [Node.text "Loading servers..."]] := by
  have h0 : (run initState tr).guilds = none := run_guilds_none tr initState h rfl
  exact ⟨h0, by rw [h0]; rfl⟩

/-- Witness for C5 on the concrete trace mount, reject, render. -/
theorem guilds_fetch_failure_witness :
    List.countP isResolve [Event.mount, Event.fetchReject, Event.renderEv] = 0
      ∧ ((run initState [Event.mount, Event.fetchReject, Event.renderEv]).guilds = none
          ∧ guildsRender
              (run initState [Event.mount, Event.fetchReject, Event.renderEv]).guilds =
            Node.elem "div" [("id", "guilds")]
              [Node.elem "h2" [] [Node.text "Servers"],
               Node.elem "p" [] [Node.text "Loading servers..."]]) :=
  ⟨by decide, guilds_fetch_failure_stays_loading _ (by decide)⟩

/-- C6: `Notice` with `mood="danger"` uses the danger border/background
pair, with no `mood` prop it uses the default pair, and each of the three
enumerated moods looks up exactly its own color pair in `MOODS`. -/
theorem notice_mood_colors :
    noticeBorder (some "danger") = some "hsl(0, 100%, 85%)"
      ∧ noticeBackground (some "danger") = some "hsl(0, 100%, 95%)"
      ∧ noticeBorder none = some "hsl(220, 100%, 85%)"
      ∧ noticeBackground none = some "hsl(220, 100%, 95%)"
      ∧ moodLookup (some "default") = some ("hsl(220, 100%, 85%)", "hsl(220, 100%, 95%)")
      ∧ moodLookup (some "danger") = some ("hsl(0, 100%, 85%)", "hsl(0, 100%, 95%)")
      ∧ moodLookup (some "success") = some ("hsl(120, 100%, 75%)", "hsl(120, 100%, 95%)") :=
  ⟨rfl, rfl, rfl, rfl, rfl, rfl, rfl⟩

/-- C7: the `MOODS` lookup succeeds exactly for the three enumerated mood
values, and for an absent mood prop (which defaults to the default mood);
every other mood string makes the unguarded access fail. -/
theorem notice_unknown_mood_fails (m : String) :
    ((moodLookup (some m)).isSome = true
        ↔ (m = "default" ∨ m = "danger" ∨ m = "success"))
      ∧ (moodLookup none).isSome = true := by
  constructor
  · constructor
    · intro h
      by_cases h1 : m = "default"
      · exact Or.inl h1
      by_cases h2 : m = "danger"
      · exact Or.inr (Or.inl h2)
      by_cases h3 : m = "success"
      · exact Or.inr (Or.inr h3)
      exfalso
      rw [moodLookup_eq_none m h1 h2 h3] at h
      simp at h
    · intro h
      rcases h with h | h | h <;> subst h <;> rfl
  · rfl

/-- C8: every trace the React runtime can produce for one view instance,
whatever renders and fetch completions it contains, ends with exactly one
issued request, the GET of `/api/guilds` triggered by the mount. -/
theorem guilds_single_fetch (tr : List Event) (h : ValidTrace tr) :
    (run initState tr).fetches = ["/api/guilds"] := by
  rw [run_fetches tr initState, h.1]
  rfl

/-- Witness for C8 on the concrete trace mount, render, reject, render. -/
theorem guilds_single_fetch_witness :
    ValidTrace [Event.mount, Event.renderEv, Event.fetchReject, Event.renderEv]
      ∧ (run initState
            [Event.mount, Event.renderEv, Event.fetchReject, Event.renderEv]).fetches =
          ["/api/guilds"] :=
  ⟨by decide, guilds_single_fetch _ (by decide)⟩

/-- C9: the rendered guild list is an order-preserving map of the fetched
array: it has the same length, and the node at every index is the list item
built from the guild at that same index. -/
theorem guilds_order_preserved (gs : List Guild) (i : Nat) :
    (guildNodes gs).length = gs.length
      ∧ (guildNodes gs)[i]? = (gs[i]?).map guildItem := by
  constructor
  · simp [guildNodes]
  · simp [guildNodes]

/-- C10: in every view state the render output is the same outer `div` with
id `guilds` whose first child is the `h2` heading "Servers"; only the tail
of its children, the content block, depends on the fetch result. -/
theorem guilds_frame (guilds : Option (List Guild)) :
    nodeTag (guildsRender guilds) = some "div"
      ∧ nodeAttrs (guildsRender guilds) = [("id", "guilds")]
      ∧ (nodeChildren (guildsRender guilds)).head? =
          some (Node.elem "h2" [] [Node.text "Servers"])
      ∧ (nodeChildren (guildsRender guilds)).tail = guildsContent guilds :=
  ⟨rfl, rfl, rfl, rfl⟩

end Dogbot
